import Mathlib

/-!
Verification development for the yapigen OpenAPI code generator.

The TypeScript sources are shallowly embedded into Lean:
- `CodeFragment` values are modelled by their text (`CF := String`);
  provenance/location data carried by the real `CodeFragment` class is
  dropped, as no property below concerns it.
- Thrown JavaScript exceptions are modelled with `Except Err`; the
  distinction between the `NotImplemented` subclass and plain `Error`
  is kept in `Err`.
- JavaScript objects consulted by key (`'key' in schema`) become
  structures/inductives with `Option` fields; `Object.entries` order is
  modelled by list order.
- The recursive schema compilers can, in the source, recurse through
  `$ref` resolution without bound, so their Lean embeddings take an
  explicit fuel argument that decreases at every recursive call.
  Running out of fuel is an artificial error; theorems quantify over
  sufficiently large fuel.
- Braces that are plain text inside generated-code strings are written
  with the escapes \x7b and \x7d, and single quotes with \x27.
-/

namespace Yapigen

/-- Code fragments, modelled by their rendered text
(src/code-fragment.ts, class CodeFragment). -/
abbrev CF := String

/-- Generator-time failures: `NotImplemented` (src/not-implemented.ts)
versus plain `Error`. -/
inductive Err where
  | notImplemented (msg : String)
  | error (msg : String)
deriving DecidableEq, Repr

/-- src/escape.ts, `escape`: prepend a backslash to every occurrence of
`char`, and to every backslash. -/
def escape (char : Char) (s : String) : String :=
  String.mk (s.toList.flatMap fun c =>
    if c = char ∨ c = '\\' then ['\\', c] else [c])

/-- The backtick character (used as a template-literal delimiter). -/
def backtick : Char := Char.ofNat 96

/-- src/formatters/util.ts, `ts_string`: quote a string for pasting
into TypeScript code. -/
def ts_string (s : String) (delim : Char := '"') : String :=
  String.singleton delim ++ escape delim s ++ String.singleton delim

/-- JavaScript `String.prototype.split` with a single-character
separator (kept kernel-computable, unlike `String.splitOn`). -/
def splitOnChar (c : Char) (s : String) : List String :=
  go s.toList []
where
  go : List Char → List Char → List String
  | [], acc => [String.mk acc]
  | ch :: rest, acc =>
    if ch = c then String.mk acc :: go rest [] else go rest (acc ++ [ch])

/-- src/ts-identifier.ts, `to_ts_identifier`: replace hyphens with
underscores. -/
def to_ts_identifier (s : String) : String :=
  String.intercalate "_" (splitOnChar '-' s)

/-- src/util.ts `intersperse`/`concat` composed as in
src/code-fragment.ts, `join_fragments`. -/
def join_fragments (combiner : CF) (fragments : List (List CF)) : List CF :=
  (List.intersperse [combiner] fragments).flatten

/-- src/formatters/util.ts, type `ObjectField`. -/
structure ObjectField where
  name : String
  type : List CF
  optional : Bool := false
  raw : Bool := false
deriving DecidableEq, Repr

/-- src/formatters/util.ts, `object_to_type`. -/
def object_to_type (o : List ObjectField) : List CF :=
  if o.isEmpty then ["Record<never, never>"]
  else
    ["\x7b"] ++
    (o.flatMap fun f =>
      [(if f.raw then f.name else ts_string f.name) ++
        (if f.optional then "?" else "") ++ ":"] ++ f.type ++ [","]) ++
    ["\x7d"]

/-! ## JSON values and the JSON-pointer resolver

Models src/json-pointer.ts (the variant with explicit object/array
checks).  Numbers are restricted to integers: the pointer code only
uses them as array indices. -/

/-- A JSON value. -/
inductive Json where
  | null
  | bool (b : Bool)
  | num (n : Int)
  | str (s : String)
  | arr (elements : List Json)
  | obj (fields : List (String × Json))

/-- src/json-pointer.ts, `json_path_unescape`, modelled exactly,
including the running `last` state that the source only updates on
non-escape characters. -/
def json_path_unescape (s : String) : Except String String :=
  go "" [] s.toList
where
  go (last : String) (acc : List Char) : List Char → Except String String
    | [] => .ok (String.mk acc)
    | c :: rest =>
      if last = "~" then
        if c = '0' then go last (acc ++ ['~']) rest
        else if c = '1' then go last (acc ++ ['/']) rest
        else .error ("Invalid escape found: ~" ++ String.singleton c ++ " ")
      else
        go (String.singleton c) (acc ++ [c]) rest

/-- JavaScript `Number(component)` as used for array indexing in the
pointer walk: `Number("")` is `0`; otherwise only plain decimal
naturals are modelled (the pointer components in scope are either
names or array indices). -/
def js_index? (s : String) : Option Nat :=
  if s = "" then some 0 else s.toNat?

/-- src/json-pointer.ts, `resolveReference`: walk an absolute
same-document pointer. -/
def resolveReference (doc : Json) (pointer : String) : Except String Json :=
  let components := splitOnChar '/' pointer
  if components.length = 0 then .error ("Empty path")
  else if components.headD "" ≠ "#" then
    .error ("Can\x27t resolve references in other documents.")
  else
    walk doc components.tail
where
  walk (object : Json) : List String → Except String Json
    | [] => .ok object
    | component_ :: rest => do
      let component ← json_path_unescape component_
      let next ←
        match js_index? component with
        | none =>
          match object with
          | .obj fields =>
            match fields.lookup component with
            | some v => Except.ok v
            | none => Except.error ("Failed finding object at pointer.")
          | _ => Except.error ("Attempted to get attribute of non-object.")
        | some idx =>
          match object with
          | .arr elements =>
            match elements.get? idx with
            | some v => Except.ok v
            | none => Except.error ("Failed finding object at pointer.")
          | _ => Except.error ("Attempted to index a non-array.")
      walk next rest

/-! ## Schema data model

A JSON-Schema node as consulted by the compilers
(src/json-schema.ts, src/formatters/headers-and-parameters.ts).
Only the keys the embedded functions actually read are modelled.
A `Reference` (`{$ref: ...}`) is a node whose `ref` field is `some`;
the source checks `'$ref' in schema` first, so other fields of such a
node are never consulted.  `enum` entries and `const` are stored as
their `JSON.stringify` renderings, which is the only way the source
uses them.  The numeric/string validation keywords are grouped in
`Validations` (a JS schema object is flat; the grouping is only
modelling bookkeeping). -/

/-- Validation keywords read by `unpack_parameter_expression`. -/
structure Validations where
  multipleOf : Option Int := none
  maximum : Option Int := none
  exclusiveMaximum : Option Int := none
  minimum : Option Int := none
  exclusiveMinimum : Option Int := none
  maxLength : Option Int := none
  minLength : Option Int := none
  pattern : Option String := none
deriving Repr

/-- A schema node.  Field order:
ref, title, type, format, enum, const, allOf, oneOf, anyOf, items,
properties, required, additionalProperties, discriminator,
validations. -/
inductive Schema : Type where
  | mk
    (ref : Option String)
    (title : Option String)
    (type : Option String)
    (format : Option String)
    (enum : Option (List String))
    (const : Option String)
    (allOf : Option (List Schema))
    (oneOf : Option (List Schema))
    (anyOf : Option (List Schema))
    (items : Option Schema)
    (properties : Option (List (String × Schema)))
    (required : Option (List String))
    (additionalProperties : Option (Sum Bool Schema))
    (discriminator : Option (String × Option (List (String × String))))
    (validations : Validations)

def Schema.ref : Schema → Option String
  | .mk r _ _ _ _ _ _ _ _ _ _ _ _ _ _ => r

def Schema.title : Schema → Option String
  | .mk _ t _ _ _ _ _ _ _ _ _ _ _ _ _ => t

def Schema.type : Schema → Option String
  | .mk _ _ t _ _ _ _ _ _ _ _ _ _ _ _ => t

def Schema.format : Schema → Option String
  | .mk _ _ _ f _ _ _ _ _ _ _ _ _ _ _ => f

def Schema.enum : Schema → Option (List String)
  | .mk _ _ _ _ e _ _ _ _ _ _ _ _ _ _ => e

def Schema.const : Schema → Option String
  | .mk _ _ _ _ _ c _ _ _ _ _ _ _ _ _ => c

def Schema.allOf : Schema → Option (List Schema)
  | .mk _ _ _ _ _ _ a _ _ _ _ _ _ _ _ => a

def Schema.oneOf : Schema → Option (List Schema)
  | .mk _ _ _ _ _ _ _ o _ _ _ _ _ _ _ => o

def Schema.anyOf : Schema → Option (List Schema)
  | .mk _ _ _ _ _ _ _ _ a _ _ _ _ _ _ => a

def Schema.items : Schema → Option Schema
  | .mk _ _ _ _ _ _ _ _ _ i _ _ _ _ _ => i

def Schema.properties : Schema → Option (List (String × Schema))
  | .mk _ _ _ _ _ _ _ _ _ _ p _ _ _ _ => p

def Schema.required : Schema → Option (List String)
  | .mk _ _ _ _ _ _ _ _ _ _ _ r _ _ _ => r

def Schema.additionalProperties : Schema → Option (Sum Bool Schema)
  | .mk _ _ _ _ _ _ _ _ _ _ _ _ a _ _ => a

def Schema.discriminator : Schema → Option (String × Option (List (String × String)))
  | .mk _ _ _ _ _ _ _ _ _ _ _ _ _ d _ => d

def Schema.validations : Schema → Validations
  | .mk _ _ _ _ _ _ _ _ _ _ _ _ _ _ v => v

/-- `Object.keys(schema).length === 0`: the schema node carries no
keys at all. -/
def Schema.isEmptyObj (s : Schema) : Bool :=
  s.ref.isNone && s.title.isNone && s.type.isNone && s.format.isNone &&
  s.enum.isNone && s.const.isNone && s.allOf.isNone && s.oneOf.isNone &&
  s.anyOf.isNone && s.items.isNone && s.properties.isNone && s.required.isNone &&
  s.additionalProperties.isNone && s.discriminator.isNone &&
  s.validations.multipleOf.isNone && s.validations.maximum.isNone &&
  s.validations.exclusiveMaximum.isNone && s.validations.minimum.isNone &&
  s.validations.exclusiveMinimum.isNone && s.validations.maxLength.isNone &&
  s.validations.minLength.isNone && s.validations.pattern.isNone

/-- The empty schema object. -/
def Schema.empty : Schema :=
  .mk none none none none none none none none none none none none none none {}

/-- A bare reference node, as constructed inline by the source
(`inner({ $ref: ref }, x)`). -/
def refSchema (r : String) : Schema :=
  .mk (some r) none none none none none none none none none none none none none {}

/-- A bare `{oneOf: [...]}` node, as constructed inline by the source
for multiple array-typed union branches. -/
def oneOfSchema (l : List Schema) : Schema :=
  .mk none none none none none none none (some l) none none none none none none {}

/-- A schema with only a `type` field. -/
def typedSchema (t : String) : Schema :=
  .mk none none (some t) none none none none none none none none none none none {}

/-- A string schema carrying a `format`. -/
def formatSchema (f : String) : Schema :=
  .mk none none (some "string") (some f) none none none none none none none none none
    none {}

/-! ## String-format registry (src/json-schema-formats.ts) -/

/-- A `FormatSpec`: `parse`/`serialize` take the value expression and
return the transformed expression text. -/
structure FormatSpec where
  parse : String → String
  serialize : String → String
  type : String
  instanceof : Option (String → String) := none

/-- The registry, modelled as a lookup function
(`string_formats[format]` yielding `undefined` becomes `none`). -/
abbrev Formats := String → Option FormatSpec

/-- The identity spec named `string` in the source. -/
def stringFormatSpec : FormatSpec where
  parse := fun x => x
  serialize := fun x => x
  type := "string"

/-- `DEFAULT_STRING_FORMATS`. -/
def DEFAULT_STRING_FORMATS : Formats := fun name =>
  match name with
  | "uri" => some
      { parse := fun x => "(new URL(" ++ x ++ "))"
        serialize := fun x => x ++ ".href"
        type := "URL" }
  | "date-time" => some
      { parse := fun x => "(new Date(" ++ x ++ "))"
        serialize := fun x => x ++ ".toISOString()"
        type := "Date" }
  | "http-date" => some
      { parse := fun x => "(new Date(" ++ x ++ "))"
        serialize := fun x => x ++ ".toUTCString()"
        type := "Date" }
  | "uuid" => some stringFormatSpec
  | "ipv4" => some stringFormatSpec
  | "ipv6" => some stringFormatSpec
  | "password" => some stringFormatSpec
  | _ => none

/-! ## OpenAPI operation-level data model (src/openapi.d.ts shapes) -/

/-- A value that may instead be a `Reference` object. -/
inductive RefOr (α : Type) where
  | ref (r : String)
  | value (v : α)

/-- A media-type object (one entry of a `content` map). -/
structure MediaType where
  schema : Option Schema := none

/-- A `Parameter` (or a `Header` spread together with `name`/`in`).
`required` and `allowEmptyValue` default to `false` like absent JS
keys; `isFlag` models `'x-isFlag' in parameter`. -/
structure Param where
  name : String := ""
  in_ : String := ""
  required : Bool := false
  allowEmptyValue : Bool := false
  isFlag : Bool := false
  schema : Option Schema := none
  content : Option (List (String × MediaType)) := none
  style : Option String := none
  explode : Option Bool := none
  allowReserved : Option Bool := none

/-- A `Response` object. -/
structure ResponseV where
  headers : Option (List (String × RefOr Param)) := none
  content : Option (List (String × MediaType)) := none

/-- A `RequestBody` object. -/
structure RequestBodyV where
  content : List (String × MediaType) := []
  required : Bool := false

/-- A security requirement: scheme name to scopes. -/
abbrev SecurityRequirement := List (String × List String)

/-- An `Operation` object (the fields the embedded functions read). -/
structure Operation where
  parameters : Option (List (RefOr Param)) := none
  requestBody : Option (RefOr RequestBodyV) := none
  responses : List (String × RefOr ResponseV) := []
  security : Option (List SecurityRequirement) := none

/-- The loaded OpenAPI document, abstracted to the resolution context:
pointer-to-object lookups for each kind of object the compilers
dereference.  The pointer *walk* itself is modelled separately and
faithfully by `resolveReference` above; the schema-level compilers
only observe resolution as a lookup. -/
structure Document where
  schemas : String → Option Schema := fun _ => none
  params : String → Option Param := fun _ => none
  responses : String → Option ResponseV := fun _ => none
  requestBodies : String → Option RequestBodyV := fun _ => none

/-- The empty document. -/
def Document.empty : Document := {}

/-- `resolve` on a schema pointer: failure mirrors
`Failed finding object at "..."`. -/
def resolveSchema (document : Document) (r : String) : Except Err Schema :=
  match document.schemas r with
  | some s => .ok s
  | none => .error (.error ("Failed finding object at \"" ++ r ++ "\"."))

/-- `resolve(object, document)`: dereference one `$ref` level if
present. -/
def resolveSchemaOrSelf (document : Document) (s : Schema) : Except Err Schema :=
  match s.ref with
  | some r => resolveSchema document r
  | none => .ok s

def resolveParam (document : Document) : RefOr Param → Except Err Param
  | .ref r =>
    match document.params r with
    | some p => .ok p
    | none => .error (.error ("Failed finding object at \"" ++ r ++ "\"."))
  | .value v => .ok v

def resolveResponse (document : Document) : RefOr ResponseV → Except Err ResponseV
  | .ref r =>
    match document.responses r with
    | some p => .ok p
    | none => .error (.error ("Failed finding object at \"" ++ r ++ "\"."))
  | .value v => .ok v

def resolveRequestBody (document : Document) : RefOr RequestBodyV → Except Err RequestBodyV
  | .ref r =>
    match document.requestBodies r with
    | some p => .ok p
    | none => .error (.error ("Failed finding object at \"" ++ r ++ "\"."))
  | .value v => .ok v

/-! ## Type compiler (src/json-schema.ts) -/

/-- src/json-schema.ts, `ts_name_for_reference`: name for a schema
reference, from the resolved schema's `title` when the key is present,
else the final pointer segment; a falsy name is an error; the result
is passed through `to_ts_identifier`. -/
def ts_name_for_reference (r : String) (document : Document) : Except Err String := do
  let schema ← resolveSchema document r
  let ret :=
    match schema.title with
    | some t => t
    | none => (splitOnChar '/' r).getLastD ""
  if ret = "" then
    .error (.error ("Failed finding a name for reference: " ++ r))
  else
    .ok (to_ts_identifier ret)

/-- JavaScript object-key insertion: overwrite in place when the key
exists, else append. -/
def jsUpsert (l : List (String × Schema)) (k : String) (v : Schema) :
    List (String × Schema) :=
  if l.any (fun kv => kv.1 = k) then
    l.map (fun kv => if kv.1 = k then (k, v) else kv)
  else l ++ [(k, v)]

/-- src/json-schema.ts, `merge_schemas`: merge object schemas for
`allOf`, later-listed properties overriding, required sets unioned. -/
def merge_schemas (schemas : List Schema) : Schema :=
  let properties := schemas.foldl
    (fun acc s => (s.properties.getD []).foldl
      (fun a kv => jsUpsert a kv.1 kv.2) acc) []
  let required := schemas.foldl
    (fun acc s => (s.required.getD []).foldl
      (fun a r => if a.contains r then a else a ++ [r]) acc) []
  Schema.mk none none (some "object") none none none none none none none
    (if properties.isEmpty then none else some properties)
    (if required.isEmpty then none else some required)
    none none {}

/-- src/json-schema.ts, `schema_to_typescript`, function `inner`,
with explicit recursion fuel (the source can recurse through resolved
`additionalProperties` references without bound). -/
def schema_to_typescript_inner (ns : String) (string_formats : Formats)
    (document : Document) : Nat → Schema → Except Err (List CF)
  | 0, _ => .error (.error "schema recursion exceeded modelling fuel")
  | fuel + 1, schema =>
    if schema.isEmptyObj then .ok ["any"] else
    match schema.ref with
    | some r => do
      let n ← ts_name_for_reference r document
      .ok [ns ++ n]
    | none =>
    match schema.allOf with
    | some l => do
      let parts ← l.mapM (schema_to_typescript_inner ns string_formats document fuel)
      .ok (["("] ++ join_fragments (" & ") parts ++ [")"])
    | none =>
    match schema.oneOf with
    | some l => do
      let parts ← l.mapM (schema_to_typescript_inner ns string_formats document fuel)
      .ok (["("] ++ join_fragments (" | ") parts ++ [")"])
    | none =>
    match schema.anyOf with
    | some l => do
      let parts ← l.mapM (schema_to_typescript_inner ns string_formats document fuel)
      .ok (["("] ++ join_fragments (" | ") parts ++ [")"])
    | none =>
    match schema.type with
    | some "null" => .ok ["null"]
    | some "boolean" => .ok ["boolean"]
    | some "integer" => .ok ["number"]
    | some "number" => .ok ["number"]
    | some "string" =>
      (match schema.enum with
      | some entries => .ok [String.intercalate (" | ") entries]
      | none =>
        match schema.const with
        | some c => .ok [c]
        | none =>
          match schema.format with
          | none => .ok ["string"]
          | some f =>
            match string_formats f with
            | none => .error (.notImplemented ("Strings with " ++ f ++ " format"))
            | some spec => .ok [spec.type])
    | some "array" =>
      (match schema.items with
      | some it => do
        let t ← schema_to_typescript_inner ns string_formats document fuel it
        .ok (t ++ ["[]"])
      | none => .ok ["any[]"])
    | some "object" => do
      let required := schema.required.getD []
      let properties := schema.properties.getD []
      let generated_properties ← properties.mapM (fun kv => do
        let t ← schema_to_typescript_inner ns string_formats document fuel kv.2
        pure (ObjectField.mk kv.1 t (!(required.contains kv.1)) false))
      let generated_properties ←
        match schema.additionalProperties with
        | none => pure generated_properties
        | some (.inl true) =>
          pure (generated_properties ++
            [ObjectField.mk "[additional: string]" ["any"] false true])
        | some (.inl false) => pure generated_properties
        | some (.inr sub) => do
          let additional ← resolveSchemaOrSelf document sub
          let t ← schema_to_typescript_inner ns string_formats document fuel additional
          pure (generated_properties ++
            [ObjectField.mk "[additional: string]" t false true])
      .ok (object_to_type generated_properties)
    | some _ => .error (.error "Unhandled type")
    | none => .error (.error "Unhandled schema form")

/-- Input to the top-level compilers: a schema, or the `true`/`false`
boolean schemas. -/
inductive SchemaOrBool where
  | bool (b : Bool)
  | schema (s : Schema)

/-- src/json-schema.ts, `schema_to_typescript` (top level). -/
def schema_to_typescript (schema : SchemaOrBool) (ns : String)
    (string_formats : Formats) (document : Document) (fuel : Nat) :
    Except Err (List CF) :=
  match schema with
  | .bool true => .ok ["any"]
  | .bool false => .ok ["never"]
  | .schema s => schema_to_typescript_inner ns string_formats document fuel s

/-! ## Parser/serializer compiler (src/json-schema.ts) -/

/-- Direction of `schema_to_serializer_or_parser`. -/
inductive Mode where
  | parser
  | serializer
deriving DecidableEq

/-- The per-property body of the object case of
`schema_to_serializer_or_parser`'s `inner`: transform one property and
splice it into the accumulated `modified` fragments, presence-checked
when the property is not required.  `sp` is the recursive call. -/
def sp_object_step (required : List String) (x : String)
    (sp : Schema → String → Except Err (Option (List CF)))
    (acc : List CF) (kv : String × Schema) : Except Err (List CF) := do
  let safe_key := ts_string kv.1
  let c ← sp kv.2 ("(" ++ x ++ "[" ++ safe_key ++ "]!)")
  match c with
  | none => pure acc
  | some p =>
    if required.contains kv.1 then
      pure (acc ++ [safe_key ++ ": "] ++ p ++ [",\n"])
    else
      pure (acc ++
        ["...(" ++ safe_key ++ " in " ++ x ++ " ? \x7b " ++ safe_key ++ ": "] ++
        p ++ [" \x7d : \x7b\x7d),\n"])

/-- src/json-schema.ts, `schema_to_serializer_or_parser`, function
`inner`, with explicit recursion fuel (the source dereferences `$ref`
without bound).  `none` models the `false` return value ("the field
needs no transforming"); generator-time exceptions are `Except.error`.
Error messages keep the source's fixed prefix but drop the
interpolated `JSON.stringify` dumps. -/
def schema_to_serializer_or_parser_inner (string_formats : Formats)
    (document : Document) (mode : Mode) :
    Nat → Schema → String → Except Err (Option (List CF))
  | 0, _, _ => .error (.error "schema recursion exceeded modelling fuel")
  | fuel + 1, schema, x =>
    match schema.ref with
    | some r => do
      let s ← resolveSchema document r
      schema_to_serializer_or_parser_inner string_formats document mode fuel s x
    | none =>
    match schema.allOf with
    | some l => do
      let parts ← l.mapM (resolveSchemaOrSelf document)
      if !(parts.all (fun e => e.type == some ("object"))) then
        -- console.warn("WARNING: Found allOf part which isn't an object")
        pure none
      else
        schema_to_serializer_or_parser_inner string_formats document mode fuel
          (merge_schemas parts) x
    | none =>
    if schema.oneOf.isSome || schema.anyOf.isSome then do
      let options := schema.oneOf.getD (schema.anyOf.getD [])
      let parts : List CF := ["(() => \x7b"]
      let parts ←
        match schema.discriminator with
        | some (propertyName, mapping) => do
          let parts := parts ++
            ["switch (" ++ x ++ "[" ++ ts_string propertyName ++ "]) \x7b"]
          let parts ←
            match mapping with
            | some m =>
              m.foldlM (fun (ps : List CF) vr => do
                let ps := ps ++ ["case " ++ ts_string vr.1 ++ ":"]
                let part ← schema_to_serializer_or_parser_inner string_formats
                  document mode fuel (refSchema vr.2) x
                let ps :=
                  match part with
                  | some p => ps ++ ["return "] ++ p
                  | none => ps ++ ["return " ++ x]
                pure (ps ++ [";\n"])) parts
            | none =>
              options.foldlM (fun (ps : List CF) r =>
                match r.ref with
                | none =>
                  Except.error (.error "All entries MUST be refs when using a discriminator")
                | some rs => do
                  let key := (splitOnChar '/' rs).getLastD ""
                  let ps := ps ++ ["case " ++ ts_string key ++ ":"]
                  let part ← schema_to_serializer_or_parser_inner string_formats
                    document mode fuel r x
                  let ps :=
                    match part with
                    | some p => ps ++ ["return "] ++ p
                    | none => ps ++ ["return " ++ x]
                  pure (ps ++ [";\n"])) parts
          pure (parts ++ ["\x7d"])
        | none => do
          let entries ← options.mapM (resolveSchemaOrSelf document)
          match entries.filter (fun e => e.type.isNone) with
          | entry :: _ =>
            if entry.allOf.isSome then
              Except.error (.notImplemented "allOf inside oneOf or anyOf")
            else if entry.oneOf.isSome then
              Except.error (.notImplemented "oneOf inside oneOf or anyOf")
            else if entry.anyOf.isSome then
              Except.error (.notImplemented "anyOf inside oneOf or anyOf")
            else
              Except.error
                (.error "In a oneOf switch, all clauses must have explicit types")
          | [] => do
            let parts ←
              match entries.filter (fun e => e.type == some ("object")) with
              | [] => pure parts
              | [o] => do
                let parts := parts ++
                  ["if (typeof " ++ x ++ " === \x27object\x27 && x !== null) \x7b"]
                let part ← schema_to_serializer_or_parser_inner string_formats
                  document mode fuel o x
                let parts :=
                  match part with
                  | some p => parts ++ ["return "] ++ p
                  | none => parts ++ ["return " ++ x]
                pure (parts ++ ["\x7d"])
              | _ => Except.error (.error
                  "Can\x27t have multiple objects in a oneOf switch without a discriminator")
            let arrays := entries.filter (fun e => e.type == some ("array"))
            let parts ←
              match arrays with
              | [] => pure parts
              | [a] => do
                let parts := parts ++ ["if (Array.isArray(" ++ x ++ ")) \x7b"]
                let parts ←
                  match a.items with
                  | some it => do
                    let resolved ← resolveSchemaOrSelf document it
                    let part ← schema_to_serializer_or_parser_inner string_formats
                      document mode fuel resolved "x"
                    match part with
                    | some p => pure (parts ++
                        ["return " ++ x ++ ".map((x: any) => "] ++ p ++ [")"])
                    | none => pure (parts ++ ["return " ++ x])
                  | none => pure (parts ++ ["return " ++ x])
                pure (parts ++ ["\x7d"])
              | _ => do
                let parts := parts ++ ["if (Array.isArray(" ++ x ++ ")) \x7b"]
                let parts ←
                  if !(arrays.all (fun e => e.items.isSome)) then
                    pure (parts ++ ["return " ++ x])
                  else do
                    let part ← schema_to_serializer_or_parser_inner string_formats
                      document mode fuel
                      (oneOfSchema (arrays.filterMap (fun e => e.items))) "x"
                    match part with
                    | some p => pure (parts ++
                        ["return " ++ x ++ ".map((x: any) => "] ++ p ++ [")"])
                    | none => pure (parts ++ ["return " ++ x])
                pure (parts ++ ["\x7d"])
            let parts :=
              if entries.any (fun e => e.type == some ("null")) then
                parts ++ ["if (" ++ x ++ " === null) \x7b return " ++ x ++ " \x7d"]
              else parts
            let parts :=
              if entries.any (fun e => e.type == some ("number")) ||
                  entries.any (fun e => e.type == some ("integer")) then
                parts ++
                  ["if (typeof " ++ x ++ " === \x27number\x27) \x7b return " ++ x ++ " \x7d"]
              else parts
            let parts :=
              if entries.any (fun e => e.type == some ("boolean")) then
                parts ++
                  ["if (typeof " ++ x ++ " === \x27boolean\x27) \x7b return " ++ x ++ " \x7d"]
              else parts
            let strings := entries.filter (fun e => e.type == some ("string"))
            let parts ←
              if strings.isEmpty then pure parts
              else do
                let withFormat := strings.filter (fun s => s.format.isSome)
                let bare := strings.filter (fun s => s.format.isNone)
                match mode with
                | .serializer => do
                  let formats := withFormat.filterMap (fun s => s.format)
                  let st := formats.foldl
                    (fun (st : List CF × Bool) format_name =>
                      match string_formats format_name with
                      | none =>
                        -- console.warn(`Unknown string format`)
                        (st.1, true)
                      | some spec =>
                        if spec.type = "string" then (st.1, true)
                        else
                          (st.1 ++ ["if ("] ++
                            (match spec.instanceof with
                            | some io => [io x]
                            | none => [x ++ " instanceof ", spec.type]) ++
                            [") \x7breturn ", spec.serialize x, "\x7d"], st.2))
                    (parts, !bare.isEmpty)
                  pure (if st.2 then
                      st.1 ++
                        ["if (typeof " ++ x ++ " === \x27string\x27) \x7b return " ++
                          x ++ " \x7d"]
                    else st.1)
                | .parser => do
                  let parts := parts ++
                    ["if (typeof " ++ x ++ " === \x27string\x27) \x7b"]
                  let st ← withFormat.foldlM
                    (fun (st : List CF × Bool) string_format => do
                      match string_formats (string_format.format.getD "") with
                      | none =>
                        -- console.warn(`Unknown string format`); has_bare_string untouched
                        pure st
                      | some spec =>
                        if spec.type = "string" then pure (st.1, true)
                        else do
                          let part ← schema_to_serializer_or_parser_inner
                            string_formats document mode fuel string_format x
                          match part with
                          | none => pure (st.1, true)
                          | some p => pure (st.1 ++ ["try \x7breturn "] ++ p ++
                              ["\x7d catch (_) \x7b\x7d"], st.2))
                    (parts, !bare.isEmpty)
                  let parts := if st.2 then st.1 ++ ["return " ++ x] else st.1
                  pure (parts ++ ["\x7d"])
            pure parts
      let parts := parts ++
        ["throw new Error(\n      \x27Failed parsing field as any of the configured string formats.\x27\n      )"]
      let parts := parts ++ ["\x7d)()"]
      pure (some parts)
    else
    match schema.type with
    | some "null" => pure none
    | some "integer" => pure none
    | some "number" => pure none
    | some "string" =>
      (match schema.format with
      | some f =>
        match string_formats f with
        | none =>
          -- console.warn(`Unknown string format`)
          pure none
        | some spec =>
          match mode with
          | .parser => pure (some [spec.parse x])
          | .serializer => pure (some [spec.serialize x])
      | none => pure none)
    | some "array" =>
      (match schema.items with
      | some it => do
        let c ← schema_to_serializer_or_parser_inner string_formats document mode
          fuel it "x"
        match c with
        | none => pure none
        | some p => pure (some ([x ++ ".map((x: any) => "] ++ p ++ [")"]))
      | none => pure none)
    | some "object" =>
      (match schema.properties with
      | some props => do
        let modified ← props.foldlM
          (sp_object_step (schema.required.getD []) x
            (schema_to_serializer_or_parser_inner string_formats document mode fuel))
          []
        if modified.isEmpty then pure none
        else pure (some (["(\x7b ..." ++ x ++ ", "] ++ modified ++ [" \x7d)"]))
      | none => pure none)
    | some _ => pure none
    | none => Except.error (.error "Unhandled schema form")

/-- src/json-schema.ts, `schema_to_serializer_or_parser` (top level):
boolean schemas, then `inner`; a `false` result becomes the input
expression unchanged. -/
def schema_to_serializer_or_parser_code (schema : SchemaOrBool) (document : Document)
    (x : String) (string_formats : Formats) (mode : Mode) (fuel : Nat) :
    Except Err (List CF) :=
  match schema with
  | .bool true => .ok [x]
  | .bool false => .ok ["(()=>\x7bthrow new Error\x7d)()"]
  | .schema s => do
    let result ← schema_to_serializer_or_parser_inner string_formats document mode
      fuel s x
    match result with
    | none => pure [x]
    | some l => pure l

/-- src/json-schema.ts, `schema_to_serializer`. -/
def schema_to_serializer_code (schema : SchemaOrBool) (document : Document)
    (string_formats : Formats) (x : String) (fuel : Nat) : Except Err (List CF) :=
  schema_to_serializer_or_parser_code schema document x string_formats .serializer fuel

/-- src/json-schema.ts, `schema_to_parser`. -/
def schema_to_parser_code (schema : SchemaOrBool) (document : Document)
    (string_formats : Formats) (x : String) (fuel : Nat) : Except Err (List CF) :=
  schema_to_serializer_or_parser_code schema document x string_formats .parser fuel

/-! ## Path templates (src/formatters/util.ts, `parse_uri_path`) -/

/-- Split a character list at the first closing brace, returning the
(brace-free) prefix and the remainder; `none` when no closing brace
exists.  Implements the `[^\x7d]+` part of the template regex. -/
def splitAtRBrace : List Char → Option (List Char × List Char)
  | [] => none
  | c :: rest =>
    if c = '\x7d' then some ([], rest)
    else
      match splitAtRBrace rest with
      | some (content, after) => some (c :: content, after)
      | none => none

/-- The left-to-right scan of `path.matchAll(/\x7b([^\x7d]+)\x7d/g)`:
each matched span is replaced by `replacement` applied to its content,
unmatched text passes through verbatim, and the contents are collected
in match order.  The fuel is the remaining input length, consumed at
least one character per step. -/
def parse_uri_path_scan (replacement : String → String) :
    Nat → List Char → List Char × List String
  | 0, _ => ([], [])
  | _ + 1, [] => ([], [])
  | fuel + 1, c :: rest =>
    if c = '\x7b' then
      match splitAtRBrace rest with
      | some (content, after) =>
        if content.isEmpty then
          let (t, ps) := parse_uri_path_scan replacement fuel rest
          (c :: t, ps)
        else
          let (t, ps) := parse_uri_path_scan replacement fuel after
          ((replacement (String.mk content)).toList ++ t, String.mk content :: ps)
      | none =>
        let (t, ps) := parse_uri_path_scan replacement fuel rest
        (c :: t, ps)
    else
      let (t, ps) := parse_uri_path_scan replacement fuel rest
      (c :: t, ps)

/-- src/formatters/util.ts, `parse_uri_path`: build the template (a
backtick string literal) and the ordered placeholder list. -/
def parse_uri_path (path : String) (replacement : String → String) :
    String × List String :=
  let cs := path.toList
  let (template, parameters) := parse_uri_path_scan replacement (cs.length + 1) cs
  (ts_string (String.mk template) backtick, parameters)

/-! ## Authentication and content negotiation
(src/formatters/authentication.ts, src/formatters/operation.ts) -/

/-- src/formatters/authentication.ts, `is_authenticated`: an operation
is authenticated unless its security list is empty or contains an
empty requirement object. -/
def is_authenticated (security_options : List SecurityRequirement) : Bool :=
  !(security_options.length = 0 ||
    (security_options.any (fun o => o.length = 0)))

/-- A content type split at the slash. -/
abbrev ContentType := String × String

/-- src/formatters/operation.ts, `content_type_matches`. -/
def content_type_matches (clause : ContentType) (target : ContentType) : Bool :=
  if target.1 = "*" then true
  else if clause.1 = target.1 ∧ clause.2 = target.2 then true
  else if clause.1 = target.1 ∧ clause.2 = "*" then true
  else false

/-! ## Parameter/header codecs
(src/formatters/headers-and-parameters.ts) -/

/-- `JSON.stringify` of a string value (control-character escapes are
not modelled; none occur in the inputs considered here). -/
def json_stringify_string (s : String) : String :=
  "\"" ++ escape '"' s ++ "\""

/-- src/formatters/validator.ts, `validator_function_name`. -/
def validator_function_name (typename : String) : String :=
  to_ts_identifier ("validators.validate_" ++ typename)

/-- Render an optional field as a JSON member list. -/
def json_member (key : String) : Option String → List String
  | some v => ["\"" ++ key ++ "\":" ++ v]
  | none => []

/-- The non-recursive JSON members of a schema node (the validation
keywords). -/
def schema_json_validation_members (s : Schema) : List String :=
  json_member "multipleOf" (s.validations.multipleOf.map toString) ++
  json_member "maximum" (s.validations.maximum.map toString) ++
  json_member "exclusiveMaximum" (s.validations.exclusiveMaximum.map toString) ++
  json_member "minimum" (s.validations.minimum.map toString) ++
  json_member "exclusiveMinimum" (s.validations.exclusiveMinimum.map toString) ++
  json_member "maxLength" (s.validations.maxLength.map toString) ++
  json_member "minLength" (s.validations.minLength.map toString) ++
  json_member "pattern" (s.validations.pattern.map json_stringify_string)

/-- `JSON.stringify(change_refs(schema))` as used by
`validate_and_parse_body`: render the schema as JSON with the leading
octothorpe stripped from `$ref` values and the `discriminator` key
omitted (the stringify replacer).  Key order follows the modelled
field order. -/
def schema_json_text : Nat → Schema → String
  | 0, _ => ""
  | fuel + 1, s =>
    let sub := fun (e : Schema) => schema_json_text fuel e
    let pieces : List String :=
      json_member "$ref" (s.ref.map (fun r => json_stringify_string (r.drop 1))) ++
      json_member "title" (s.title.map json_stringify_string) ++
      json_member "type" (s.type.map json_stringify_string) ++
      json_member "format" (s.format.map json_stringify_string) ++
      json_member "enum"
        (s.enum.map (fun e => "[" ++ String.intercalate "," e ++ "]")) ++
      json_member "const" s.const ++
      json_member "allOf" (s.allOf.map (fun l =>
        "[" ++ String.intercalate "," (l.map sub) ++ "]")) ++
      json_member "oneOf" (s.oneOf.map (fun l =>
        "[" ++ String.intercalate "," (l.map sub) ++ "]")) ++
      json_member "anyOf" (s.anyOf.map (fun l =>
        "[" ++ String.intercalate "," (l.map sub) ++ "]")) ++
      json_member "items" (s.items.map sub) ++
      json_member "properties" (s.properties.map (fun ps =>
        "\x7b" ++ String.intercalate "," (ps.map (fun kv =>
          json_stringify_string kv.1 ++ ":" ++ sub kv.2)) ++ "\x7d")) ++
      json_member "required" (s.required.map (fun rs =>
        "[" ++ String.intercalate "," (rs.map json_stringify_string) ++ "]")) ++
      json_member "additionalProperties" (s.additionalProperties.map (fun ap =>
        match ap with
        | .inl true => "true"
        | .inl false => "false"
        | .inr so => sub so)) ++
      schema_json_validation_members s
    "\x7b" ++ String.intercalate "," pieces ++ "\x7d"

/-- src/formatters/validate-body.ts, `validate_and_parse_body`.
The type is rendered with the string-format registry disabled
(`string_formats: false` in the source; that variant of the type
compiler is not under src/, and following the source comment
"String formats disabled, since this is the step BEFORE we parse
those" it is modelled by a registry mapping every format to the plain
string spec). -/
def validate_and_parse_body (schema : Schema) (body_var : String)
    (validators_symbol : String) (gensym : String → String)
    (string_formats : Formats) (document : Document) (fuel : Nat) :
    Except Err (List CF) := do
  let validator : List CF ←
    match schema.ref with
    | some r =>
      let typename := (splitOnChar '/' r).getLastD ""
      pure [validator_function_name typename ++ "(" ++ body_var ++ ");\n"]
    | none =>
      pure [validators_symbol ++ ".validate_type(" ++ body_var ++ ", " ++
        schema_json_text fuel schema ++ ");\n"]
  let validated_body_var := gensym ("validated_body")
  let parsed ← schema_to_parser_code (.schema schema) document string_formats
    validated_body_var fuel
  let type ← schema_to_typescript (.schema schema) ("expand.")
    (fun _ => some stringFormatSpec) document fuel
  pure (["(() => \x7b"] ++ validator ++ [";\n"] ++
    ["const " ++ validated_body_var ++ " = " ++ body_var ++ " as "] ++ type ++
    [";\n    return "] ++ parsed ++ [";\x7d)()"])

/-- The `validator` helper local to `unpack_parameter_expression`. -/
def unpack_validator (generator_common_symbol : String) (test : CF)
    (response : CF) : List CF :=
  ["if (!(", test,
    ")) \x7b\n        throw new " ++ generator_common_symbol ++
      ".APIMalformedError(",
    response, ")\x7d\n"]

/-- src/formatters/headers-and-parameters.ts,
`unpack_parameter_expression`: parse the raw line value of a header or
parameter back into its typed form, validating on the way.  The
`x-isFlag` extension is handled first: non-query placement, a
`required` flag, or a missing `allowEmptyValue` are generation-time
errors, while a present `schema` is only warned about and ignored, and
the compiled expression is the constant `true`. -/
def unpack_parameter_expression (header_field : String) (header : Param)
    (generator_common_symbol : String) (validators_symbol : String)
    (gensym : String → String) (string_formats : Formats) (document : Document)
    (fuel : Nat) : Except Err (List CF) :=
  if header.isFlag then
    if header.in_ ≠ "query" then
      .error (.error "x-isFlag can ONLY appear on query parameters")
    else if header.required then
      .error (.error "x-isFlag can\x27t be required")
    else if !header.allowEmptyValue then
      .error (.error "x-isFlag must allow empty values")
    else
      -- if ('schema' in args.header) console.warn('Schema ignored on x-isFlag parameter')
      .ok ["true"]
  else match header.schema with
  | some schema_ => do
    let schema ← resolveSchemaOrSelf document schema_
    match schema.type with
    | none =>
      Except.error (.notImplemented
        "Only basic schemas are implemented for response headers")
    | some t =>
      if !(t = "integer" ∨ t = "number" ∨ t = "string") then
        Except.error (.notImplemented
          "Only basic schemas are implemented for response headers")
      else do
        let hname := json_stringify_string header.name
        let normalized := gensym ("normalized")
        let fragments : List CF :=
          ["(()=>\x7b", "const " ++ normalized ++ " = ",
            (if t = "integer" ∨ t = "number" then
              "Number(" ++ header_field ++ ")"
            else header_field), ";\n"]
        let enumv := schema.enum.map (fun e =>
          "[" ++ String.intercalate "," e ++ "]")
        let fragments := fragments ++
          (match enumv with
          | some ev =>
            ["\n      if (!" ++ ev ++ ".includes(" ++ normalized ++
              ")) \x7b\n        throw new " ++ generator_common_symbol ++
              ".APIMalformedError(\n            " ++ hname ++
              " + \x27 not in \x27 + " ++ ev ++ ")\n        \x7d\n"]
          | none => [])
        let return_type_override : Option String :=
          enumv.map (fun ev => generator_common_symbol ++ ".Unlist<" ++ ev ++ ">")
        let fragments := fragments ++
          (match schema.const with
          | some cv =>
            ["\n      if (" ++ cv ++ " !== " ++ normalized ++
              ") \x7b\n        throw new " ++ generator_common_symbol ++
              ".APIMalformedError(\n        " ++ hname ++ " + \" !== \" + " ++
              cv ++ ")\n      \x7d\n"]
          | none => [])
        let return_type_override :=
          match schema.const with
          | some cv => some cv
          | none => return_type_override
        let v := unpack_validator generator_common_symbol
        if t = "integer" ∨ t = "number" then do
          let fragments := fragments ++
            (match schema.validations.multipleOf with
            | some m => v (normalized ++ " % " ++ toString m ++ " === 0")
                (hname ++ " + \" not a multiple of " ++ toString m ++ "\"")
            | none => []) ++
            (match schema.validations.maximum with
            | some m => v (normalized ++ " <= " ++ toString m)
                (hname ++ " + \" > " ++ toString m ++ "\"")
            | none => []) ++
            (match schema.validations.exclusiveMaximum with
            | some m => v (normalized ++ " < " ++ toString m)
                (hname ++ " + \" => " ++ toString m ++ "\"")
            | none => []) ++
            (match schema.validations.minimum with
            | some m => v (normalized ++ " >= " ++ toString m)
                (hname ++ " + \" < " ++ toString m ++ "\"")
            | none => []) ++
            (match schema.validations.exclusiveMinimum with
            | some m => v (normalized ++ " > " ++ toString m)
                (hname ++ " + \" <= " ++ toString m ++ "\"")
            | none => []) ++
            ["return " ++ normalized]
          let fragments := fragments ++
            (match return_type_override with
            | some ov => if ov ≠ "" then [" as " ++ ov] else []
            | none => [])
          pure (fragments ++ [";\n", "\x7d) ()"])
        else do
          let fragments := fragments ++
            (match schema.validations.maxLength with
            | some m => v (normalized ++ ".length <= " ++ toString m)
                (hname ++ " + \" too long\"")
            | none => []) ++
            (match schema.validations.minLength with
            | some m => v (normalized ++ ".length >= " ++ toString m)
                (hname ++ " + \" too short\"")
            | none => []) ++
            (match schema.validations.pattern with
            | some p => v (normalized ++ ".match(new RegExp(" ++
                  json_stringify_string p ++ "))")
                (hname ++ " + \" failed to match a regex pattern\"")
            | none => [])
          match schema.format with
          | some f =>
            (match string_formats f with
            | some spec => do
              let fragments := fragments ++ ["return ", spec.parse normalized]
              -- return_type_override reset to false
              pure (fragments ++ [";\n", "\x7d) ()"])
            | none =>
              Except.error (.notImplemented ("Strings with " ++ f ++ " format")))
          | none => do
            let fragments := fragments ++ ["return " ++ normalized]
            let fragments := fragments ++
              (match return_type_override with
              | some ov => if ov ≠ "" then [" as " ++ ov] else []
              | none => [])
            pure (fragments ++ [";\n", "\x7d) ()"])
  | none =>
    match header.content with
    | some content =>
      if content.length ≠ 1 then Except.error (.error "")
      else
        let mimetype := (content.headD ("", {})).1
        let body := (content.headD ("", {})).2
        match mimetype with
        | "text/plain" => pure [header_field ++ " "]
        | "application/json" => do
          let content_var := gensym ("content")
          let fragments : List CF :=
            ["(() => \x7b\n            const " ++ content_var ++
              " = JSON.parse(" ++ header_field ++ "); "]
          match body.schema with
          | some sch => do
            let vb ← validate_and_parse_body sch content_var validators_symbol
              gensym string_formats document fuel
            pure (fragments ++ ["return "] ++ vb ++ ["; \n"] ++ ["\x7d)()"])
          | none =>
            pure (fragments ++ ["return " ++ content_var ++ ";\n"] ++ ["\x7d)()"])
        | _ =>
          Except.error (.notImplemented
            ("Headers (or parameters) of type " ++ mimetype ++ " not implemented"))
    | none =>
      -- console.warn('Found header or parameter with neither content nor schema')
      pure [header_field ++ " "]

/-- src/formatters/headers-and-parameters.ts, `format_parameter_type`. -/
def format_parameter_type (parameter : Param) (types_symbol : String)
    (string_formats : Formats) (document : Document) (fuel : Nat) :
    Except Err (List CF) :=
  match parameter.content with
  | some content =>
    if content.length ≠ 1 then
      .error (.error
        "If content is present on a parameter, its length MUST be exactly 1")
    else
      let media := (content.headD ("", {})).2
      schema_to_typescript (.schema (media.schema.getD Schema.empty))
        (types_symbol ++ ".") string_formats document fuel
  | none =>
    match parameter.schema with
    | some s =>
      schema_to_typescript (.schema s) (types_symbol ++ ".") string_formats
        document fuel
    | none => .error (.error "Content or Schema required in headers and parameter")

/-- src/formatters/headers-and-parameters.ts, `format_parameter`:
`null` (here `none`) means the parameter is ignored; the `Accept`,
`Content-Type` and `Authorization` headers are dropped per the OpenAPI
specification. -/
def format_parameter (parameter : Param) (types_symbol : String)
    (string_formats : Formats) (document : Document) (fuel : Nat) :
    Except Err (Option ObjectField) := do
  let name := parameter.name
  let type ← format_parameter_type parameter types_symbol string_formats document
    fuel
  match parameter.in_ with
  | "query" => pure (some (ObjectField.mk parameter.name type (!parameter.required) false))
  | "header" =>
    if name = "Accept" ∨ name = "Content-Type" ∨ name = "Authorization" then
      pure none
    else
      pure (some (ObjectField.mk parameter.name type (!parameter.required) false))
  | "path" => pure (some (ObjectField.mk parameter.name type false false))
  | "cookie" => pure (some (ObjectField.mk parameter.name type (!parameter.required) false))
  | _ => pure none

/-! ## Operation compiler (src/formatters/operation.ts) -/

/-- src/formatters/operation.ts, `return_body_type`: the
(content-type literal, body type) pairs of a response `content` map.
Known content types yield a quoted content-type literal; unknown ones
warn and yield the raw type `string` with an `ArrayBuffer` body;
`application/json` without a schema is filtered out. -/
def return_body_type (content : List (String × MediaType)) (types_symbol : String)
    (string_formats : Formats) (document : Document) (fuel : Nat) :
    Except Err (List (String × List CF)) := do
  let entries ← content.mapM (fun mb => do
    match mb.1 with
    | "text/plain" =>
      pure (some (ts_string ("text/plain"), (["string"] : List CF)))
    | "application/json" =>
      (match mb.2.schema with
      | none => pure none
      | some s => do
        let t ← schema_to_typescript (.schema s) (types_symbol ++ ".")
          string_formats document fuel
        pure (some (ts_string ("application/json"), t)))
    | _ =>
      -- console.warn(`Unhandled content type, defering resolution to runtime`)
      pure (some ("string", (["ArrayBuffer"] : List CF))))
  pure (entries.filterMap id)

/-- src/formatters/operation.ts, `get_return_type`: the client-side
return type contributed by one declared response.  `none` models the
`null` return used to suppress the `401` variant of authenticated
operations. -/
def get_return_type (status : String) (response_ : RefOr ResponseV)
    (security : List SecurityRequirement) (types_symbol : String)
    (string_formats : Formats) (document : Document) (fuel : Nat) :
    Except Err (Option (List CF)) := do
  if status = "default" then
    Except.error (.notImplemented "Response status \x27default\x27")
  else do
    let response ← resolveResponse document response_
    if is_authenticated security ∧ status = "401" then
      pure none
    else do
      let responses : List (List (String × List CF)) ←
        match response.content with
        | some content => do
          let body ← return_body_type content types_symbol string_formats document
            fuel
          pure (body.map (fun e =>
            [("status", ([status] : List CF)), ("content_type", [e.1]),
              ("body", e.2)]))
        | none => pure [[("status", ([status] : List CF))]]
      let responses ←
        match response.headers with
        | some headers => do
          let fields ← headers.mapM (fun nt => do
            let h ← resolveParam document nt.2
            format_parameter { h with name := nt.1, in_ := "header" } types_symbol
              string_formats document fuel)
          let header_type := object_to_type (fields.filterMap id)
          pure (responses.map (fun r => r ++ [("headers", header_type)]))
        | none => pure responses
      pure (some (join_fragments (" | ")
        (responses.map (fun r => object_to_type
          (r.map (fun nt => ObjectField.mk nt.1 nt.2 false false))))))

/-- src/formatters/operation.ts,
`request_body_to_serializer_input_type`. -/
def request_body_to_serializer_input_type (schema : Option Schema)
    (content_type : String) (types_symbol : String) (string_formats : Formats)
    (document : Document) (fuel : Nat) : Except Err (List CF) :=
  match schema with
  | some s =>
    schema_to_typescript (.schema s) (types_symbol ++ ".") string_formats document
      fuel
  | none =>
    match content_type with
    | "text/plain" => .ok ["string"]
    | "application/json" => .ok ["Json"]
    | "application/binary" => .ok ["Buffer"]
    | "application/octet-stream" => .ok ["Buffer"]
    | _ => .ok ["unknown"]

/-- src/formatters/operation.ts,
`format_operation_as_server_endpoint_handler_type`: the type of the
user-supplied handler callback for one operation.  Responses are
iterated with only the `default` status skipped (with a warning);
there is no security-based filtering here. -/
def format_operation_as_server_endpoint_handler_type (operation : Operation)
    (shared_parameters : List Param) (types_symbol : String)
    (express_symbol : String) (string_formats : Formats) (document : Document)
    (fuel : Nat) : Except Err (List CF) := do
  let local_parameters ← (operation.parameters.getD []).mapM
    (resolveParam document)
  let all_parameters := shared_parameters ++ local_parameters
  let common_function_parameters ← all_parameters.foldlM (fun acc p => do
    let t ← format_parameter p types_symbol string_formats document fuel
    match t with
    | none => pure acc
    | some f => pure (acc ++ [f])) ([] : List ObjectField)
  let body_parameters : List (List CF) ←
    match operation.requestBody with
    | none => pure []
    | some rb => do
      let request_body ← resolveRequestBody document rb
      request_body.content.mapM (fun ctd => do
        let bt ← request_body_to_serializer_input_type ctd.2.schema ctd.1
          types_symbol string_formats document fuel
        pure (object_to_type
          [ObjectField.mk "content_type" [ts_string ctd.1] false false,
            ObjectField.mk "body" bt false false]))
  let all_results ← operation.responses.foldlM (fun (acc : List (List CF)) sr => do
    if sr.1 = "default" then
      -- console.warn('`default` response not implemented, ignoring')
      pure acc
    else do
      let response ← resolveResponse document sr.2
      -- if ('links' in response) console.warn('Response links ignored')
      let results := [ObjectField.mk "status" [sr.1] false false]
      let results ←
        match response.headers with
        | some headers => do
          let fields ← headers.mapM (fun nt => do
            let h ← resolveParam document nt.2
            format_parameter { h with name := nt.1, in_ := "header" } types_symbol
              string_formats document fuel)
          pure (results ++ fields.filterMap id)
        | none => pure results
      let results ←
        match response.content with
        | some content =>
          List.foldlM (fun (res : List ObjectField) ctm =>
            match ctm.1 with
            | "text/plain" =>
              pure (res ++ [ObjectField.mk ctm.1 ["() => string"] false false])
            | "text/html" =>
              pure (res ++ [ObjectField.mk ctm.1 ["() => string"] false false])
            | "application/json" =>
              (match ctm.2.schema with
              | some sch => do
                let resolved ← resolveSchemaOrSelf document sch
                let t ← schema_to_typescript (.schema resolved)
                  (types_symbol ++ ".") string_formats document fuel
                pure (res ++ [ObjectField.mk ctm.1 (["() => "] ++ t) false false])
              | none =>
                pure (res ++ [ObjectField.mk ctm.1 ["() => Json"] false false]))
            | _ =>
              pure (res ++
                [ObjectField.mk ctm.1 ["() => ArrayBuffer"] false false]))
            results content
        | none => pure results
      pure (acc ++ [object_to_type results])) []
  let result_fragment := join_fragments (" | ") all_results
  let function_parameters : List CF :=
    if body_parameters.isEmpty then
      object_to_type common_function_parameters
    else
      ["("] ++ object_to_type common_function_parameters ++ [") & ("] ++
        join_fragments (" | ") body_parameters ++ [")"]
  pure (["(args: "] ++ function_parameters ++
    [", req: " ++ express_symbol ++ ".Request"] ++
    [") => Promise<"] ++ result_fragment ++ [">"])

/-! ## Schema classes for the no-op optimization law -/

/-- Schemas with no transformable leaves: the scalar types, strings
whose `format` is absent or *not present in the registry*, and
arrays/objects built only from such schemas.  Fueled for structural
recursion; the fuel only needs to exceed the schema depth. -/
def noTransform (string_formats : Formats) : Nat → Schema → Bool
  | 0, _ => false
  | fuel + 1, s =>
    s.ref.isNone && s.allOf.isNone && s.oneOf.isNone && s.anyOf.isNone &&
    (match s.type with
    | some "null" => true
    | some "integer" => true
    | some "number" => true
    | some "boolean" => true
    | some "string" =>
      (match s.format with
      | none => true
      | some f => (string_formats f).isNone)
    | some "array" =>
      (match s.items with
      | none => true
      | some it => noTransform string_formats fuel it)
    | some "object" =>
      (match s.properties with
      | none => true
      | some props => props.all (fun kv => noTransform string_formats fuel kv.2))
    | _ => false)

/-- The class exactly as the no-op claim words it: like `noTransform`,
but a string leaf also counts as non-transformable when its format is
registered with declared type `string`. -/
def noTransformAsClaimed (string_formats : Formats) : Nat → Schema → Bool
  | 0, _ => false
  | fuel + 1, s =>
    s.ref.isNone && s.allOf.isNone && s.oneOf.isNone && s.anyOf.isNone &&
    (match s.type with
    | some "null" => true
    | some "integer" => true
    | some "number" => true
    | some "boolean" => true
    | some "string" =>
      (match s.format with
      | none => true
      | some f =>
        match string_formats f with
        | none => true
        | some spec => spec.type = "string")
    | some "array" =>
      (match s.items with
      | none => true
      | some it => noTransformAsClaimed string_formats fuel it)
    | some "object" =>
      (match s.properties with
      | none => true
      | some props =>
        props.all (fun kv => noTransformAsClaimed string_formats fuel kv.2))
    | _ => false)

/-! ## Concrete inputs used by the theorems below -/

/-- The empty string-format registry. -/
def fmts0 : Formats := fun _ => none

/-- A registry with a user-supplied format of declared type `string`
whose parse/serialize expressions are not the identity. -/
def weirdFormats : Formats := fun name =>
  match name with
  | "weird" => some
      { parse := fun x => "f(" ++ x ++ ")"
        serialize := fun x => "g(" ++ x ++ ")"
        type := "string" }
  | _ => none

/-- A non-empty security requirement list with no empty requirement
object. -/
def secC2 : List SecurityRequirement := [[("api_key", [])]]

/-- An authenticated operation declaring a `200` and a `401` response. -/
def opC2 : Operation :=
  { responses := [("200", .value {}), ("401", .value {})], security := some secC2 }

/-- An `allOf` whose only part is a string schema (not an object). -/
def allOfNonObject : Schema :=
  .mk none none none none none none (some [typedSchema ("string")]) none none none
    none none none none {}

/-- `\x7btype: object, required: [a], properties: \x7ba: date-time
string, b: plain string\x7d\x7d`. -/
def objSchemaPlain : Schema :=
  .mk none none (some "object") none none none none none none none
    (some [("a", typedSchema ("string")), ("b", typedSchema ("number"))])
    (some ["a"]) none none {}

/-- A document holding one titleless schema under a hyphenated name. -/
def docC6 : Document :=
  { schemas := fun r =>
      if r = "#/components/schemas/my-type" then some (typedSchema ("string"))
      else none }

/-- A reference node pointing into `docC6`. -/
def refC6 : Schema := refSchema "#/components/schemas/my-type"

/-- A well-formed `x-isFlag` query parameter that also carries a
schema. -/
def flagParamWithSchema : Param :=
  { name := "force", in_ := "query", required := false, allowEmptyValue := true,
    isFlag := true, schema := some (typedSchema ("boolean")) }

/-- An `Accept` header parameter. -/
def acceptHeaderParam : Param :=
  { name := "Accept", in_ := "header", required := true,
    schema := some (typedSchema ("string")) }

/-- An ordinary header parameter. -/
def customHeaderParam : Param :=
  { name := "X-Rate-Limit", in_ := "header", required := false,
    schema := some (typedSchema ("number")) }

/-! ## Helper lemmas -/

theorem ok_bind {α β : Type} (a : α) (f : α → Except Err β) :
    (Except.ok a >>= f) = f a := rfl

theorem Schema.sizeOf_pos (s : Schema) : 0 < sizeOf s := by
  cases s; simp_arith

theorem sizeOf_items_lt {s : Schema} {it : Schema} (h : s.items = some it) :
    sizeOf it < sizeOf s := by
  cases s with
  | mk f1 f2 f3 f4 f5 f6 f7 f8 f9 f10 f11 f12 f13 f14 f15 =>
    simp only [Schema.items] at h
    subst h
    simp_arith

theorem sizeOf_prop_lt {s : Schema} {props : List (String × Schema)}
    {kv : String × Schema} (h : s.properties = some props) (hm : kv ∈ props) :
    sizeOf kv.2 < sizeOf s := by
  cases s with
  | mk f1 f2 f3 f4 f5 f6 f7 f8 f9 f10 f11 f12 f13 f14 f15 =>
    simp only [Schema.properties] at h
    subst h
    have h1 : sizeOf kv < sizeOf props := List.sizeOf_lt_of_mem hm
    have h2 : sizeOf kv.2 < sizeOf kv := by
      obtain ⟨k, v⟩ := kv; simp_arith
    simp_arith
    omega

theorem foldlM_sp_object_step_ok (required : List String) (x : String)
    (sp : Schema → String → Except Err (Option (List CF))) :
    ∀ (l : List (String × Schema)),
      (∀ kv ∈ l, sp kv.2 ("(" ++ x ++ "[" ++ ts_string kv.1 ++ "]!)") = .ok none) →
      ∀ acc, l.foldlM (sp_object_step required x sp) acc = .ok acc := by
  intro l
  induction l with
  | nil => intro _ acc; rfl
  | cons kv rest ihl =>
    intro h acc
    rw [List.foldlM_cons]
    have hkv := h kv (List.mem_cons_self _ _)
    simp only [sp_object_step, hkv]
    exact ihl (fun kv' h' => h kv' (List.mem_cons_of_mem _ h')) acc

/-- Schemas in the `noTransform` class compile to "no transformation
needed" (`false` in the source, `none` here) in both directions, for
any document and sufficient fuel. -/
theorem noTransform_inner_ok (string_formats : Formats) (document : Document)
    (mode : Mode) :
    ∀ (n : Nat) (s : Schema), sizeOf s ≤ n → ∀ (nf fuel : Nat) (x : String),
      noTransform string_formats nf s = true → sizeOf s < fuel →
      schema_to_serializer_or_parser_inner string_formats document mode fuel s x
        = .ok none := by
  intro n
  induction n with
  | zero =>
    intro s hs
    exact absurd hs (by have := Schema.sizeOf_pos s; omega)
  | succ n ih =>
    intro s hs nf fuel x hnt hfuel
    cases nf with
    | zero => simp [noTransform] at hnt
    | succ m =>
      cases fuel with
      | zero => exact absurd hfuel (by omega)
      | succ f =>
        simp only [noTransform, Bool.and_eq_true] at hnt
        obtain ⟨⟨⟨⟨href, hallOf⟩, honeOf⟩, hanyOf⟩, htype⟩ := hnt
        rw [Option.isNone_iff_eq_none] at href hallOf honeOf hanyOf
        simp only [schema_to_serializer_or_parser_inner, href, hallOf, honeOf,
          hanyOf, Option.isSome_none, Bool.or_self, Bool.false_eq_true, if_false]
        split at htype
        case _ heq =>
          simp [heq]; rfl
        case _ heq =>
          simp [heq]; rfl
        case _ heq =>
          simp [heq]; rfl
        case _ heq =>
          simp [heq]; rfl
        case _ heq =>
          split at htype
          case _ heq2 => simp [heq, heq2]; rfl
          case _ f' heq2 =>
            rw [Option.isNone_iff_eq_none] at htype
            simp [heq, heq2, htype]; rfl
        case _ heq =>
          split at htype
          case _ heq2 => simp [heq, heq2]; rfl
          case _ it heq2 =>
            have hlt : sizeOf it < sizeOf s := sizeOf_items_lt heq2
            have hrec := ih it (by omega) m f "x" htype (by omega)
            simp [heq, heq2, hrec]; rfl
        case _ heq =>
          split at htype
          case _ heq2 => simp [heq, heq2]; rfl
          case _ props heq2 =>
            rw [List.all_eq_true] at htype
            have hfold := foldlM_sp_object_step_ok (s.required.getD []) x
              (schema_to_serializer_or_parser_inner string_formats document mode f)
              props
              (fun kv hm => by
                have hlt : sizeOf kv.2 < sizeOf s := sizeOf_prop_lt heq2 hm
                exact ih kv.2 (by omega) m f _ (by simpa using htype kv hm)
                  (by omega))
              []
            simp [heq, heq2, hfold]; rfl
        simp at htype

/-! ## Claim C1 -/

/-- Claim C1, counterexample: for a string schema with an unregistered
format, `schema_to_parser` and `schema_to_serializer` do *not* fail;
they fall back to the untransformed input expression, contradicting
the claim that both compilers fail hard. -/
theorem claim_C1_counterexample :
    schema_to_parser_code (.schema (formatSchema ("made-up"))) Document.empty
      fmts0 "x" 10 = .ok ["x"] ∧
    schema_to_serializer_code (.schema (formatSchema ("made-up"))) Document.empty
      fmts0 "x" 10 = .ok ["x"] :=
  ⟨rfl, rfl⟩

/-- Claim C1, amended: for every string schema with a `format` absent
from the registry, the type compiler fails with a NotImplemented error
naming the format, while the parser/serializer compiler degrades to
the bare-string passthrough (the input expression unchanged, after a
logged warning). -/
theorem claim_C1_unknown_format :
    ∀ (ns : String) (string_formats : Formats) (document : Document) (fuel : Nat)
      (s : Schema) (f : String) (x : String),
      s.ref = none → s.allOf = none → s.oneOf = none → s.anyOf = none →
      s.type = some "string" → s.enum = none → s.const = none →
      s.format = some f → string_formats f = none →
      schema_to_typescript (.schema s) ns string_formats document (fuel + 1)
        = .error (.notImplemented ("Strings with " ++ f ++ " format")) ∧
      schema_to_parser_code (.schema s) document string_formats x (fuel + 1)
        = .ok [x] ∧
      schema_to_serializer_code (.schema s) document string_formats x (fuel + 1)
        = .ok [x] := by
  intro ns string_formats document fuel s f x href hallOf honeOf hanyOf htype
    henum hconst hformat hlookup
  have hne : s.isEmptyObj = false := by
    simp [Schema.isEmptyObj, htype]
  refine ⟨?_, ?_, ?_⟩
  · simp [schema_to_typescript, schema_to_typescript_inner, hne, href, hallOf,
      honeOf, hanyOf, htype, henum, hconst, hformat, hlookup]
  · simp [schema_to_parser_code, schema_to_serializer_or_parser_code,
      schema_to_serializer_or_parser_inner, href, hallOf, honeOf, hanyOf, htype,
      hformat, hlookup]
    rfl
  · simp [schema_to_serializer_code, schema_to_serializer_or_parser_code,
      schema_to_serializer_or_parser_inner, href, hallOf, honeOf, hanyOf, htype,
      hformat, hlookup]
    rfl

/-- Claim C1, witness: the amended theorem at a concrete schema and
the empty registry. -/
theorem claim_C1_witness :
    schema_to_typescript (.schema (formatSchema ("made-up"))) "" fmts0
      Document.empty 10 = .error (.notImplemented "Strings with made-up format") ∧
    schema_to_parser_code (.schema (formatSchema ("made-up"))) Document.empty
      fmts0 "x" 10 = .ok ["x"] ∧
    schema_to_serializer_code (.schema (formatSchema ("made-up"))) Document.empty
      fmts0 "x" 10 = .ok ["x"] := by
  have h := claim_C1_unknown_format "" fmts0 Document.empty 9
    (formatSchema ("made-up")) "made-up" "x" rfl rfl rfl rfl rfl rfl rfl rfl rfl
  exact ⟨h.1, h.2.1, h.2.2⟩

/-! ## Claim C2 -/

/-- Claim C2, counterexample: an authenticated operation declaring a
`401` response still gets that response in the server handler-type
union — the handler-type generator performs no security filtering —
so the claim that `401` appears in neither union is false. -/
theorem claim_C2_counterexample :
    is_authenticated secC2 = true ∧
    "401" ∈ (format_operation_as_server_endpoint_handler_type opC2 [] "types"
      "express" DEFAULT_STRING_FORMATS Document.empty 5).toOption.getD [] := by
  exact ⟨rfl, by decide⟩

/-- Claim C2, amended: for authenticated operations a declared `401`
response is suppressed from the *client* return-type union
(`get_return_type` yields nothing), but it still appears in the server
handler-type response union. -/
theorem claim_C2_authenticated_401 :
    (∀ (response_ : RefOr ResponseV) (security : List SecurityRequirement)
      (types_symbol : String) (string_formats : Formats) (document : Document)
      (fuel : Nat) (r : ResponseV),
      is_authenticated security = true →
      resolveResponse document response_ = .ok r →
      get_return_type "401" response_ security types_symbol string_formats
        document fuel = .ok none) ∧
    "401" ∈ (format_operation_as_server_endpoint_handler_type opC2 [] "types"
      "express" DEFAULT_STRING_FORMATS Document.empty 5).toOption.getD [] := by
  constructor
  · intro response_ security types_symbol string_formats document fuel r hauth
      hres
    unfold get_return_type
    rw [if_neg (by decide), hres, ok_bind]
    rw [if_pos ⟨hauth, rfl⟩]
    rfl
  · decide

/-- Claim C2, witness: the suppression half of the amended theorem at
a concrete response and security list. -/
theorem claim_C2_witness :
    get_return_type "401" (.value {}) secC2 "types" DEFAULT_STRING_FORMATS
      Document.empty 5 = .ok none :=
  claim_C2_authenticated_401.1 (.value {}) secC2 "types" DEFAULT_STRING_FORMATS
    Document.empty 5 {} rfl rfl

/-! ## Claim C3 -/

/-- Claim C3: evaluation of `content_type_matches` at the claimed
inputs.  The first and third agree with the claim, but a clause
wildcard in the *type* part is not honoured: `match("*/*",
"anything/here")` is `false`, contradicting both the claim and the
function's own documentation example. -/
theorem claim_C3_eval :
    content_type_matches ("text", "*") ("text", "plain") = true ∧
    content_type_matches ("*", "*") ("anything", "here") = false ∧
    content_type_matches ("text", "plain") ("text", "*") = false := by
  refine ⟨rfl, ?_, ?_⟩ <;> rfl

/-! ## Claim C4 -/

/-- Claim C4: evaluation of `json_path_unescape`.  The function keeps
the `~` of an escape sequence in its output and never resets its
escape state, so `~0` unescapes to `~~` (not `~`), `~1` to `~/` (not
`/`), and `a~1b` throws instead of yielding `a/b`; resolution through
such a component fails accordingly.  This contradicts the claim and
the source's own "implementation of json pointer (RFC 6901)"
documentation. -/
theorem claim_C4_eval :
    json_path_unescape "a~1b" = .error "Invalid escape found: ~b " ∧
    json_path_unescape "~0" = .ok "~~" ∧
    json_path_unescape "~1" = .ok "~/" ∧
    resolveReference (.obj [("a/b", .num 1)]) "#/a~1b"
      = .error "Invalid escape found: ~b " :=
  ⟨rfl, rfl, rfl, rfl⟩

/-! ## Claim C5 -/

/-- Claim C5, counterexample: a string schema whose `format` is
registered with declared type `string` is in the claim's
"no transformable leaves" class ("string without a registered
non-string format"), yet the compiled parser/serializer is the
format's parse/serialize expression, not the input expression. -/
theorem claim_C5_counterexample :
    noTransformAsClaimed weirdFormats 5 (formatSchema ("weird")) = true ∧
    schema_to_parser_code (.schema (formatSchema ("weird"))) Document.empty
      weirdFormats "x" 5 = .ok ["f(x)"] ∧
    schema_to_serializer_code (.schema (formatSchema ("weird"))) Document.empty
      weirdFormats "x" 5 = .ok ["g(x)"] ∧
    (["f(x)"] : List CF) ≠ ["x"] :=
  ⟨rfl, rfl, rfl, by decide⟩

/-- Claim C5, amended no-op law: for every schema with no
transformable leaves — scalar types, strings whose `format` is absent
or *not registered at all*, and arrays/objects composed solely of
such — `schema_to_parser` and `schema_to_serializer` return exactly
the input expression.  (A registered format is always compiled through
its parse/serialize expressions, even when its declared type is
`string`; for the built-in string-typed formats those expressions
happen to be the identity.) -/
theorem claim_C5_noop_law :
    ∀ (string_formats : Formats) (document : Document) (s : Schema) (x : String)
      (nf fuel : Nat),
      noTransform string_formats nf s = true → sizeOf s < fuel →
      schema_to_parser_code (.schema s) document string_formats x fuel
        = .ok [x] ∧
      schema_to_serializer_code (.schema s) document string_formats x fuel
        = .ok [x] := by
  intro string_formats document s x nf fuel hnt hlt
  constructor
  · have h := noTransform_inner_ok string_formats document .parser (sizeOf s) s
      le_rfl nf fuel x hnt hlt
    simp [schema_to_parser_code, schema_to_serializer_or_parser_code, h]
    rfl
  · have h := noTransform_inner_ok string_formats document .serializer (sizeOf s)
      s le_rfl nf fuel x hnt hlt
    simp [schema_to_serializer_code, schema_to_serializer_or_parser_code, h]
    rfl

/-- Claim C5, witness: the amended law at a concrete object schema
with a required string property and a number property. -/
theorem claim_C5_witness :
    noTransform DEFAULT_STRING_FORMATS 10 objSchemaPlain = true ∧
    sizeOf objSchemaPlain < 100000 ∧
    schema_to_parser_code (.schema objSchemaPlain) Document.empty
      DEFAULT_STRING_FORMATS "x" 100000 = .ok ["x"] ∧
    schema_to_serializer_code (.schema objSchemaPlain) Document.empty
      DEFAULT_STRING_FORMATS "x" 100000 = .ok ["x"] := by
  have h := claim_C5_noop_law DEFAULT_STRING_FORMATS Document.empty objSchemaPlain
    "x" 10 100000 (by decide) (by decide)
  exact ⟨by decide, by decide, h.1, h.2⟩

/-! ## Claim C6 -/

/-- Claim C6: a Reference schema compiles to exactly one fragment — a
qualified name built from the resolved schema's `title` when present,
else the final pointer segment, hyphens replaced by underscores,
prefixed by the namespace argument — and the referenced schema's
structure is never inlined. -/
theorem claim_C6_reference_name :
    ∀ (ns : String) (string_formats : Formats) (document : Document) (fuel : Nat)
      (s : Schema) (r : String) (target : Schema),
      s.ref = some r →
      resolveSchema document r = .ok target →
      (match target.title with
        | some t => t
        | none => (splitOnChar '/' r).getLastD "") ≠ "" →
      schema_to_typescript (.schema s) ns string_formats document (fuel + 1)
        = .ok [ns ++ to_ts_identifier (match target.title with
            | some t => t
            | none => (splitOnChar '/' r).getLastD "")] := by
  intro ns string_formats document fuel s r target href hres hname
  have hne : s.isEmptyObj = false := by
    simp [Schema.isEmptyObj, href]
  cases htitle : target.title with
  | some t =>
    rw [htitle] at hname
    simp [schema_to_typescript, schema_to_typescript_inner, hne, href,
      ts_name_for_reference, hres, ok_bind, htitle, hname]
  | none =>
    rw [htitle] at hname
    simp at hname
    simp [schema_to_typescript, schema_to_typescript_inner, hne, href,
      ts_name_for_reference, hres, ok_bind, htitle, hname]

/-- Claim C6, witness: a titleless schema referenced through a
hyphenated pointer segment yields the qualified underscored name. -/
theorem claim_C6_witness :
    schema_to_typescript (.schema refC6) "types." DEFAULT_STRING_FORMATS docC6 10
      = .ok ["types.my_type"] := by
  have h := claim_C6_reference_name "types." DEFAULT_STRING_FORMATS docC6 9 refC6
    "#/components/schemas/my-type" (typedSchema ("string")) rfl rfl (by decide)
  exact h

/-! ## Claim C7 -/

/-- Claim C7, counterexample: an `x-isFlag` query parameter carrying a
`schema` violates one of the claim's preconditions, yet
`unpack_parameter_expression` does not fail — the schema is ignored
with a warning and the expression compiles to the constant `true`. -/
theorem claim_C7_counterexample :
    unpack_parameter_expression "raw" flagParamWithSchema "common" "validators"
      (fun h => h) fmts0 Document.empty 5 = .ok ["true"] :=
  rfl

/-- Claim C7, amended: for an `x-isFlag` parameter, non-`query`
placement, a `required` flag, and a missing `allowEmptyValue` each
fail at generation time; a present `schema` is only warned about and
ignored; when the three hard preconditions hold the expression
compiles to the constant `true` (schema or not). -/
theorem claim_C7_isFlag :
    ∀ (header_field : String) (header : Param) (gcs vs : String)
      (gensym : String → String) (string_formats : Formats) (document : Document)
      (fuel : Nat),
      header.isFlag = true →
      ((header.in_ ≠ "query" →
        unpack_parameter_expression header_field header gcs vs gensym
          string_formats document fuel
          = .error (.error "x-isFlag can ONLY appear on query parameters")) ∧
      (header.in_ = "query" → header.required = true →
        unpack_parameter_expression header_field header gcs vs gensym
          string_formats document fuel
          = .error (.error "x-isFlag can\x27t be required")) ∧
      (header.in_ = "query" → header.required = false →
        header.allowEmptyValue = false →
        unpack_parameter_expression header_field header gcs vs gensym
          string_formats document fuel
          = .error (.error "x-isFlag must allow empty values")) ∧
      (header.in_ = "query" → header.required = false →
        header.allowEmptyValue = true →
        unpack_parameter_expression header_field header gcs vs gensym
          string_formats document fuel = .ok ["true"])) := by
  intro header_field header gcs vs gensym string_formats document fuel hflag
  refine ⟨?_, ?_, ?_, ?_⟩
  · intro hin
    simp [unpack_parameter_expression, hflag, hin]
  · intro hin hreq
    simp [unpack_parameter_expression, hflag, hin, hreq]
  · intro hin hreq hempty
    simp [unpack_parameter_expression, hflag, hin, hreq, hempty]
  · intro hin hreq hempty
    simp [unpack_parameter_expression, hflag, hin, hreq, hempty]

/-- Claim C7, witness: the compiled-to-`true` case of the amended
theorem at a concrete flag parameter that carries a schema. -/
theorem claim_C7_witness :
    unpack_parameter_expression "raw" flagParamWithSchema "common" "validators"
      (fun h => h) fmts0 Document.empty 5 = .ok ["true"] :=
  (claim_C7_isFlag "raw" flagParamWithSchema "common" "validators" (fun h => h)
    fmts0 Document.empty 5 rfl).2.2.2 rfl rfl rfl

/-! ## Claim C8 -/

/-- Claim C8, counterexample: an `allOf` whose only part is a string
schema does not make the parser/serializer compiler fail; it silently
degrades to the no-op transform. -/
theorem claim_C8_counterexample :
    schema_to_parser_code (.schema allOfNonObject) Document.empty fmts0 "x" 5
      = .ok ["x"] ∧
    schema_to_serializer_code (.schema allOfNonObject) Document.empty fmts0 "x" 5
      = .ok ["x"] :=
  ⟨rfl, rfl⟩

/-- Claim C8, amended: in the parser/serializer compiler, an `allOf`
containing a part that does not resolve to type `object` is *not* a
failure: after a logged warning the whole schema compiles to the no-op
transform (the input expression unchanged). -/
theorem claim_C8_allOf_non_object :
    ∀ (string_formats : Formats) (document : Document) (mode : Mode) (fuel : Nat)
      (s : Schema) (l parts : List Schema) (x : String),
      s.ref = none → s.allOf = some l →
      l.mapM (resolveSchemaOrSelf document) = .ok parts →
      parts.all (fun e => e.type == some ("object")) = false →
      schema_to_serializer_or_parser_code (.schema s) document x string_formats
        mode (fuel + 1) = .ok [x] := by
  intro string_formats document mode fuel s l parts x href hallOf hmap hall
  simp only [schema_to_serializer_or_parser_code,
    schema_to_serializer_or_parser_inner, href, hallOf]
  rw [hmap, ok_bind, hall]
  rfl

/-- Claim C8, witness: the amended theorem at a concrete `allOf` with
a single string part, in both directions. -/
theorem claim_C8_witness :
    schema_to_serializer_or_parser_code (.schema allOfNonObject) Document.empty
      "x" fmts0 .parser 5 = .ok ["x"] ∧
    schema_to_serializer_or_parser_code (.schema allOfNonObject) Document.empty
      "x" fmts0 .serializer 5 = .ok ["x"] :=
  ⟨claim_C8_allOf_non_object fmts0 Document.empty .parser 4 allOfNonObject
      [typedSchema ("string")] [typedSchema ("string")] "x" rfl rfl rfl rfl,
    claim_C8_allOf_non_object fmts0 Document.empty .serializer 4 allOfNonObject
      [typedSchema ("string")] [typedSchema ("string")] "x" rfl rfl rfl rfl⟩

/-! ## Claim C9 -/

/-- Claim C9: `parse_uri_path` on the claimed example returns the
placeholder list exactly `["id"]` and a backtick template with the
literal parts `/entry/` and `/completed` verbatim and `f("id")`
substituted at the placeholder position; with two placeholders the
names are listed in order of occurrence with each span replaced by the
replacement function applied to its content. -/
theorem claim_C9_path_template :
    ∀ (f : String → String),
      parse_uri_path "/entry/\x7bid\x7d/completed" f
        = (ts_string (String.mk ("/entry/".toList ++ (f ("id")).toList ++
            "/completed".toList)) backtick, ["id"]) ∧
      parse_uri_path "/a/\x7bx\x7d/\x7by\x7d" f
        = (ts_string (String.mk ("/a/".toList ++ (f ("x")).toList ++
            ('/' :: (f ("y")).toList))) backtick, ["x", "y"]) := by
  intro f
  constructor
  · rfl
  · have h : parse_uri_path "/a/\x7bx\x7d/\x7by\x7d" f
        = (ts_string (String.mk ("/a/".toList ++ (f ("x")).toList ++
            ('/' :: ((f ("y")).toList ++ [])))) backtick, ["x", "y"]) := rfl
    simpa using h

/-! ## Claim C10 -/

/-- Claim C10: a header parameter named exactly `Accept`,
`Content-Type` or `Authorization` is dropped (`format_parameter`
returns nothing), and every other header parameter becomes a field
whose optionality is the negation of its required flag — provided the
parameter's type itself compiles. -/
theorem claim_C10_special_headers :
    ∀ (p : Param) (types_symbol : String) (string_formats : Formats)
      (document : Document) (fuel : Nat) (t : List CF),
      format_parameter_type p types_symbol string_formats document fuel = .ok t →
      p.in_ = "header" →
      ((p.name = "Accept" ∨ p.name = "Content-Type" ∨ p.name = "Authorization") →
        format_parameter p types_symbol string_formats document fuel
          = .ok none) ∧
      (¬(p.name = "Accept" ∨ p.name = "Content-Type" ∨ p.name = "Authorization") →
        format_parameter p types_symbol string_formats document fuel
          = .ok (some (ObjectField.mk p.name t (!p.required) false))) := by
  intro p types_symbol string_formats document fuel t ht hin
  constructor
  · intro hspecial
    simp [format_parameter, ht, hin, hspecial]
  · intro hother
    simp [format_parameter, ht, hin, hother]

/-- Claim C10, witness: an `Accept` header is dropped and an ordinary
header keeps its (negated-required) optionality. -/
theorem claim_C10_witness :
    format_parameter acceptHeaderParam "types" DEFAULT_STRING_FORMATS
      Document.empty 5 = .ok none ∧
    format_parameter customHeaderParam "types" DEFAULT_STRING_FORMATS
      Document.empty 5
      = .ok (some (ObjectField.mk "X-Rate-Limit" ["number"] true false)) := by
  constructor
  · exact (claim_C10_special_headers acceptHeaderParam "types"
      DEFAULT_STRING_FORMATS Document.empty 5 ["string"] rfl rfl).1
      (Or.inl rfl)
  · exact (claim_C10_special_headers customHeaderParam "types"
      DEFAULT_STRING_FORMATS Document.empty 5 ["number"] rfl rfl).2
      (by decide)

end Yapigen
